import Mathlib

/-!
Verification of the multiverse graph editor: a shallow embedding of the
undo/redo history manager, the graph mutation operations and the external
enrichment-service boundary, together with proofs of the specified
properties.  Definitions are translated from the TypeScript source
(the App component, `constants.ts` and `services/geminiService.ts`);
randomness (`Math.random()`), the wall clock (`Date.now()`) and the
asynchronous service responses become explicit inputs.
-/

namespace Multiverse

/-- The fixed classification of a node (TS `enum FutureType`). -/
inductive FutureType where
  | ROOT
  | PROBABLE
  | PLAUSIBLE
  | POSSIBLE
  | PREPOSTEROUS
deriving DecidableEq, Repr

/-- The total mapping from the five future types to colors
(TS mapped object type `{ [key in FutureType]: string }`). -/
structure NodeColors where
  ROOT : String
  PROBABLE : String
  PLAUSIBLE : String
  POSSIBLE : String
  PREPOSTEROUS : String
deriving DecidableEq, Repr

/-- Look up the color for a future type (TS `nodeColors[type]`). -/
def NodeColors.get (c : NodeColors) : FutureType → String
  | .ROOT => c.ROOT
  | .PROBABLE => c.PROBABLE
  | .PLAUSIBLE => c.PLAUSIBLE
  | .POSSIBLE => c.POSSIBLE
  | .PREPOSTEROUS => c.PREPOSTEROUS

/-- TS `interface MultiverseTheme`. -/
structure MultiverseTheme where
  backgroundColor : String
  nodeColors : NodeColors
  uiAccentColor : String
deriving DecidableEq, Repr

/-- TS `interface MultiverseNode`.  `parentId : string | null` becomes
`Option String`; the optional field `linkedIds?: string[]` becomes
`Option (List String)`; the 3-space position becomes a real triple. -/
structure MultiverseNode where
  id : String
  parentId : Option String
  type : FutureType
  position : ℝ × ℝ × ℝ
  title : String
  description : String
  principles : List String
  color : String
  linkedIds : Option (List String)

/-- TS `COLORS` from `constants.ts`. -/
def COLORS : NodeColors :=
  { ROOT := "#ffffff"
    PROBABLE := "#4ade80"
    PLAUSIBLE := "#60a5fa"
    POSSIBLE := "#a78bfa"
    PREPOSTEROUS := "#f472b6" }

/-- TS `DEFAULT_THEME` from the App component. -/
def DEFAULT_THEME : MultiverseTheme :=
  { backgroundColor := "#050505"
    nodeColors := COLORS
    uiAccentColor := "#4ade80" }

/-- First entry of TS `INITIAL_NODES` (`constants.ts`); titles,
descriptions and principles are abbreviated where long, which no claim
depends on; ids, parent ids, types, positions and link lists are exact. -/
def initialRoot : MultiverseNode :=
  { id := "root", parentId := none, type := .ROOT, position := (0, 0, 0),
    title := "Current Self", description := "UX Designer at a mid-sized tech firm.",
    principles := ["User Advocacy", "Simplicity"],
    color := COLORS.get .ROOT, linkedIds := some [] }

/-- Second entry of TS `INITIAL_NODES`. -/
def initialProb1 : MultiverseNode :=
  { id := "prob-1", parentId := some "root", type := .PROBABLE, position := (0, 0, 10),
    title := "Senior Product Owner", description := "You climbed the ladder.",
    principles := ["Efficiency", "Growth", "Stability"],
    color := COLORS.get .PROBABLE, linkedIds := some [] }

/-- Third entry of TS `INITIAL_NODES`. -/
def initialPlaus1 : MultiverseNode :=
  { id := "plaus-1", parentId := some "root", type := .PLAUSIBLE, position := (5, 2, 12),
    title := "Freelance Ethical Consultant", description := "You left the firm.",
    principles := ["Ethics", "Autonomy", "Transparency"],
    color := COLORS.get .PLAUSIBLE, linkedIds := some [] }

/-- Fourth entry of TS `INITIAL_NODES`. -/
def initialPoss1 : MultiverseNode :=
  { id := "poss-1", parentId := some "root", type := .POSSIBLE, position := (-8, -4, 15),
    title := "Bio-Digital Weaver", description := "Design has merged with biology.",
    principles := ["Biomimicry", "Regeneration", "Symbiosis"],
    color := COLORS.get .POSSIBLE, linkedIds := some [] }

/-- Fifth entry of TS `INITIAL_NODES`. -/
def initialPrep1 : MultiverseNode :=
  { id := "prep-1", parentId := some "root", type := .PREPOSTEROUS, position := (15, 10, 18),
    title := "Post-Human Architect", description := "You design for collective consciousnesses.",
    principles := ["Transhumanism", "Collectivism", "Immortality"],
    color := COLORS.get .PREPOSTEROUS, linkedIds := some [] }

/-- Sixth entry of TS `INITIAL_NODES`. -/
def initialPrep2 : MultiverseNode :=
  { id := "prep-2", parentId := some "root", type := .PREPOSTEROUS, position := (-12, 8, 14),
    title := "Neo-Luddite Scribe", description := "Technology collapsed.",
    principles := ["Preservation", "Tangibility", "Community"],
    color := COLORS.get .PREPOSTEROUS, linkedIds := some [] }

/-- TS `INITIAL_NODES` from `constants.ts`. -/
def INITIAL_NODES : List MultiverseNode :=
  [initialRoot, initialProb1, initialPlaus1, initialPoss1, initialPrep1, initialPrep2]

/-- The two `Math.random()` samples and the z-jitter sample consumed by
`calculateChildPosition`, each drawn from `[0, 1)`. -/
structure RandomSamples where
  angleSample : ℝ
  radiusSample : ℝ
  zSample : ℝ

/-- The `spreadXY` assigned by the `switch (type)` in
`calculateChildPosition`; the `default` branch (reached for `ROOT`)
assigns 5. -/
def spreadXY : FutureType → ℝ
  | .PROBABLE => 3
  | .PLAUSIBLE => 6
  | .POSSIBLE => 12
  | .PREPOSTEROUS => 20
  | .ROOT => 5

/-- The `stepZ` assigned by the `switch (type)` in
`calculateChildPosition`; the `default` branch (reached for `ROOT`)
assigns 10. -/
def stepZ : FutureType → ℝ
  | .PROBABLE => 8
  | .PLAUSIBLE => 10
  | .POSSIBLE => 14
  | .PREPOSTEROUS => 18
  | .ROOT => 10

/-- TS `calculateChildPosition`: `angle = Math.random() * Math.PI * 2`,
`radius = Math.random() * spreadXY`, offsets `cos(angle)*radius`,
`sin(angle)*radius`, and `offsetZ = stepZ + Math.random() * 2`. -/
noncomputable def calculateChildPosition (parent : MultiverseNode) (type : FutureType)
    (rnd : RandomSamples) : ℝ × ℝ × ℝ :=
  let px := parent.position.1
  let py := parent.position.2.1
  let pz := parent.position.2.2
  let angle := rnd.angleSample * Real.pi * 2
  let radius := rnd.radiusSample * spreadXY type
  let offsetX := Real.cos angle * radius
  let offsetY := Real.sin angle * radius
  let offsetZ := stepZ type + rnd.zSample * 2
  (px + offsetX, py + offsetY, pz + offsetZ)

/-- TS `interface AppState { nodes; theme }`: one history snapshot. -/
structure AppState where
  nodes : List MultiverseNode
  theme : MultiverseTheme

/-- The App component's state: the history array, the history index and
the selection (`selectedIds`).  The transient `isGeneratingTheme` spinner
flag is UI-only and carries no snapshot data. -/
structure FullState where
  history : List AppState
  historyIndex : Nat
  selectedIds : List String

/-- The derived current snapshot, TS `history[historyIndex]`.  The source
indexes unconditionally; the index is always in bounds by construction,
so the default value of `getD` is never reached on reachable states. -/
def FullState.current (s : FullState) : AppState :=
  s.history.getD s.historyIndex ⟨[], DEFAULT_THEME⟩

/-- The in-bounds invariant `historyIndex < history.length` maintained by
the component. -/
def FullState.Wf (s : FullState) : Prop :=
  s.historyIndex < s.history.length

/-- TS `pushState(newNodes, newTheme)`: truncate the history to
`slice(0, historyIndex + 1)`, append the new snapshot, increment the
index.  The source gives `newTheme` the default value `theme` (the
current snapshot's theme); callers of the one-argument form pass
`s.current.theme` explicitly here. -/
def pushState (s : FullState) (newNodes : List MultiverseNode)
    (newTheme : MultiverseTheme) : FullState :=
  { s with
    history := s.history.take (s.historyIndex + 1) ++ [⟨newNodes, newTheme⟩]
    historyIndex := s.historyIndex + 1 }

/-- TS `undo`: decrement the index when `historyIndex > 0`. -/
def undo (s : FullState) : FullState :=
  if s.historyIndex > 0 then { s with historyIndex := s.historyIndex - 1 } else s

/-- TS `redo`: increment the index when `historyIndex < history.length - 1`. -/
def redo (s : FullState) : FullState :=
  if s.historyIndex < s.history.length - 1 then
    { s with historyIndex := s.historyIndex + 1 }
  else s

/-- TS derived `selectedNodes`: map each selected id to
`nodes.find(n => n.id === id)` and drop the misses. -/
def selectedNodes (s : FullState) : List MultiverseNode :=
  s.selectedIds.filterMap (fun id => s.current.nodes.find? (fun n => n.id == id))

/-- TS `handleNodeSelect`: additive click toggles membership, plain click
replaces the selection. -/
def handleNodeSelect (s : FullState) (node : MultiverseNode) (isMultiSelect : Bool) :
    FullState :=
  { s with selectedIds :=
      if isMultiSelect then
        if s.selectedIds.contains node.id then
          s.selectedIds.filter (fun id => id != node.id)
        else
          s.selectedIds ++ [node.id]
      else [node.id] }

/-- TS `handleCloseOverlay`: clear the selection. -/
def handleCloseOverlay (s : FullState) : FullState :=
  { s with selectedIds := [] }

/-- Replace the selection wholesale (`setSelectedIds`), as the UI does
when the user re-selects a set of nodes. -/
def withSelection (s : FullState) (sel : List String) : FullState :=
  { s with selectedIds := sel }

/-- The per-node update applied inside `handleLinkSelectedNodes`'s
`nodes.map`: when the node is the link source and the target id is not
already among its links, append it (`existingLinks = n.linkedIds || []`
is inlined). -/
def linkMapStep (sourceId targetId : String) (n : MultiverseNode) : MultiverseNode :=
  if n.id == sourceId then
    if ! (n.linkedIds.getD []).contains targetId then
      { n with linkedIds := some ((n.linkedIds.getD []) ++ [targetId]) }
    else n
  else n

/-- The body of TS `handleLinkSelectedNodes` once the two selected nodes
have been destructured into `source` and `target`: append the target id
to the source node's `linkedIds` when absent; push only when the source
node's link-list length changed
(`sourceNode.linkedIds?.length !== originalNode.linkedIds?.length`);
always reset the selection to the source. -/
def linkPair (s : FullState) (source target : MultiverseNode) : FullState :=
  { (match (s.current.nodes.map (linkMapStep source.id target.id)).find?
        (fun n => n.id == source.id),
      s.current.nodes.find? (fun n => n.id == source.id) with
    | some sn, some origN =>
      if (sn.linkedIds.map List.length) ≠ (origN.linkedIds.map List.length) then
        pushState s (s.current.nodes.map (linkMapStep source.id target.id)) s.current.theme
      else s
    | _, _ => s) with selectedIds := [source.id] }

/-- TS `handleLinkSelectedNodes`: returns unchanged unless exactly two
nodes are selected (`if (selectedNodes.length !== 2) return`), then runs
`linkPair` on them. -/
def handleLinkSelectedNodes (s : FullState) : FullState :=
  match selectedNodes s with
  | [source, target] => linkPair s source target
  | _ => s

/-- The `data` argument of TS `handleCreateNode`. -/
structure CreateNodeData where
  title : String
  description : String
  type : FutureType
  principles : List String

/-- The `newNode` object literal built inside TS `handleCreateNode`:
id `` `node-${Date.now()}` `` (the clock reading `now` is an explicit
input here), position from `calculateChildPosition`, color from the
current theme, empty `linkedIds`. -/
noncomputable def newNodeOf (s : FullState) (parentId : String) (data : CreateNodeData)
    (now : Nat) (rnd : RandomSamples) (parentNode : MultiverseNode) : MultiverseNode :=
  { id := "node-" ++ toString now
    parentId := some parentId
    type := data.type
    position := calculateChildPosition parentNode data.type rnd
    title := data.title
    description := data.description
    principles := data.principles
    color := s.current.theme.nodeColors.get data.type
    linkedIds := some [] }

/-- TS `handleCreateNode`: no-op when `parentId` resolves to no node;
otherwise appends the new node, pushes, and selects the new node. -/
noncomputable def handleCreateNode (s : FullState) (parentId : String)
    (data : CreateNodeData) (now : Nat) (rnd : RandomSamples) : FullState :=
  match s.current.nodes.find? (fun n => n.id == parentId) with
  | none => s
  | some parentNode =>
    withSelection
      (pushState s (s.current.nodes ++ [newNodeOf s parentId data now rnd parentNode])
        s.current.theme)
      [(newNodeOf s parentId data now rnd parentNode).id]

/-- TS `Partial<MultiverseNode>`: each field optionally present. -/
structure NodeUpdates where
  id : Option String := none
  parentId : Option (Option String) := none
  type : Option FutureType := none
  position : Option (ℝ × ℝ × ℝ) := none
  title : Option String := none
  description : Option String := none
  principles : Option (List String) := none
  color : Option String := none
  linkedIds : Option (Option (List String)) := none

/-- The spread `{ ...n, ...updates }`: provided fields override. -/
def applyUpdates (n : MultiverseNode) (u : NodeUpdates) : MultiverseNode :=
  { id := u.id.getD n.id
    parentId := u.parentId.getD n.parentId
    type := u.type.getD n.type
    position := u.position.getD n.position
    title := u.title.getD n.title
    description := u.description.getD n.description
    principles := u.principles.getD n.principles
    color := u.color.getD n.color
    linkedIds := u.linkedIds.getD n.linkedIds }

/-- TS `handleUpdateNode`: map the update over the node list and push —
note the push is unconditional in the source, whether or not any node
matched `nodeId`. -/
def handleUpdateNode (s : FullState) (nodeId : String) (updates : NodeUpdates) :
    FullState :=
  let updatedNodes := s.current.nodes.map
    (fun n => if n.id == nodeId then applyUpdates n updates else n)
  pushState s updatedNodes s.current.theme

/-- TS `handleGenerateTheme` after the `await`: the service result is the
explicit input.  On `some newTheme` every node's color is recomputed from
the new theme and one snapshot is pushed; on `none` nothing happens. -/
def handleGenerateTheme (s : FullState) (result : Option MultiverseTheme) : FullState :=
  match result with
  | some newTheme =>
    let updatedNodes := s.current.nodes.map
      (fun n => { n with color := newTheme.nodeColors.get n.type })
    pushState s updatedNodes newTheme
  | none => s

/-- The component's initial state: one seed snapshot
`{ nodes: INITIAL_NODES, theme: DEFAULT_THEME }`, index 0, empty
selection. -/
def initialState : FullState :=
  { history := [⟨INITIAL_NODES, DEFAULT_THEME⟩]
    historyIndex := 0
    selectedIds := [] }

/-! ## The enrichment-service boundary (`services/geminiService.ts`)

Each service call is modelled as a function of the credential string
(`process.env.API_KEY || ''`, so a missing key is the empty string) and
the outcome of the awaited `generateContent` pipeline.  `threw` covers an
exception from the transport or from `JSON.parse` (both are caught by the
surrounding `try`); `empty` is an absent/empty `response.text`; `ok` is a
usable response. -/

/-- Outcome of the awaited `generateContent` call (plus `JSON.parse`
where the source parses). -/
inductive GenerateContentResult (α : Type) where
  | threw : GenerateContentResult α
  | empty : GenerateContentResult α
  | ok : α → GenerateContentResult α
deriving DecidableEq, Repr

/-- TS `generateReflection`: fixed string on a missing key; fixed string
on a caught error; `response.text || "The multiverse is silent right now."`
otherwise. -/
def generateReflection (apiKey : String) (resp : GenerateContentResult String) :
    String :=
  if apiKey == "" then
    "API Key is missing. Please check your environment configuration."
  else
    match resp with
    | .threw => "Static interference prevents a clear signal from the multiverse (API Error)."
    | .empty => "The multiverse is silent right now."
    | .ok t => t

/-- TS `generateCulturalProbes`: one-element fallback lists on a missing
key, an empty response and a caught transport/parse error; the parsed
JSON array otherwise. -/
def generateCulturalProbes (apiKey : String)
    (resp : GenerateContentResult (List String)) : List String :=
  if apiKey == "" then
    ["API Key missing. Imagine a probe here."]
  else
    match resp with
    | .threw => ["Static interference (API Error)."]
    | .empty => ["The signal is weak."]
    | .ok ps => ps

/-- TS `generateMultiverseTheme`: `null` on a missing key, `null` on an
empty response and `null` on a caught transport/parse error; the parsed
theme otherwise. -/
def generateMultiverseTheme (apiKey : String)
    (resp : GenerateContentResult MultiverseTheme) : Option MultiverseTheme :=
  if apiKey == "" then none
  else
    match resp with
    | .threw => none
    | .empty => none
    | .ok t => some t

/-! ## User intents and the reachable-state step function -/

/-- One user intent, carrying the environment inputs (clock, random
samples, service result) its handler consumes. -/
inductive Intent where
  | create (parentId : String) (data : CreateNodeData) (now : Nat) (rnd : RandomSamples)
  | link
  | update (nodeId : String) (u : NodeUpdates)
  | genTheme (result : Option MultiverseTheme)
  | doUndo
  | doRedo
  | select (node : MultiverseNode) (isMultiSelect : Bool)
  | clearSelection

/-- Dispatch one intent to its handler. -/
noncomputable def step (s : FullState) : Intent → FullState
  | .create parentId data now rnd => handleCreateNode s parentId data now rnd
  | .link => handleLinkSelectedNodes s
  | .update nodeId u => handleUpdateNode s nodeId u
  | .genTheme result => handleGenerateTheme s result
  | .doUndo => undo s
  | .doRedo => redo s
  | .select node isMultiSelect => handleNodeSelect s node isMultiSelect
  | .clearSelection => handleCloseOverlay s

/-- Run a list of intents from a state. -/
noncomputable def runIntents (s : FullState) (l : List Intent) : FullState :=
  l.foldl step s

/-- Number of root nodes (nodes with `parentId` none) in a node list. -/
def countRoots (ns : List MultiverseNode) : Nat :=
  (ns.filter (fun n => n.parentId.isNone)).length

/-- The cursor sits on the last snapshot (`historyIndex = length - 1`),
the situation after every push and in the initial state. -/
def AtEnd (s : FullState) : Prop :=
  s.historyIndex + 1 = s.history.length

/-- An intent whose `UpdateNode` payload, if any, does not supply the
`parentId` field. -/
def NoParentOverride : Intent → Prop
  | .update _ u => u.parentId = none
  | _ => True

/-- Every snapshot in the history has exactly one root node. -/
def AllOneRoot (s : FullState) : Prop :=
  ∀ snap ∈ s.history, countRoots snap.nodes = 1

/-- Concrete create payload used by witnesses. -/
def sampleData : CreateNodeData :=
  { title := "New Future", description := "A branch.", type := .PROBABLE,
    principles := ["Curiosity"] }

/-- Concrete random samples used by witnesses. -/
def sampleRnd : RandomSamples := ⟨0, 0, 0⟩

/-- `initialState` with the root and its probable child selected, used to
exercise the link operation. -/
def linkSelState : FullState :=
  { initialState with selectedIds := ["root", "prob-1"] }

/-- The initial root node with an existing manual link to `prob-1`. -/
def initialRootLinked : MultiverseNode :=
  { initialRoot with linkedIds := some ["prob-1"] }

/-- A state whose current snapshot already contains the link
root → prob-1, with both nodes selected. -/
def linkedState : FullState :=
  { history := [⟨[initialRootLinked, initialProb1], DEFAULT_THEME⟩]
    historyIndex := 0
    selectedIds := ["root", "prob-1"] }

/-- Iterated pushes (used to express spec property §8 bullet 1). -/
def applyPushes (s : FullState) (ps : List (List MultiverseNode × MultiverseTheme)) :
    FullState :=
  ps.foldl (fun acc p => pushState acc p.1 p.2) s

/-- `n` undos in a row. -/
def undoN : Nat → FullState → FullState
  | 0, s => s
  | n + 1, s => undoN n (undo s)

/-- `n` redos in a row. -/
def redoN : Nat → FullState → FullState
  | 0, s => s
  | n + 1, s => redoN n (redo s)

/-! ## Basic lemmas about the history manager -/

theorem undo_history (s : FullState) : (undo s).history = s.history := by
  unfold undo; split <;> rfl

theorem redo_history (s : FullState) : (redo s).history = s.history := by
  unfold redo; split <;> rfl

theorem undo_selectedIds (s : FullState) : (undo s).selectedIds = s.selectedIds := by
  unfold undo; split <;> rfl

theorem redo_selectedIds (s : FullState) : (redo s).selectedIds = s.selectedIds := by
  unfold redo; split <;> rfl

theorem undo_historyIndex (s : FullState) :
    (undo s).historyIndex = s.historyIndex - 1 := by
  unfold undo; split
  · rfl
  · omega

theorem length_take_wf (s : FullState) (h : s.Wf) :
    (s.history.take (s.historyIndex + 1)).length = s.historyIndex + 1 := by
  have := h
  unfold FullState.Wf at this
  simp [List.length_take]
  omega

theorem pushState_length (s : FullState) (ns : List MultiverseNode)
    (t : MultiverseTheme) (h : s.Wf) :
    (pushState s ns t).history.length = s.historyIndex + 2 := by
  simp [pushState, length_take_wf s h]

theorem pushState_wf (s : FullState) (ns : List MultiverseNode)
    (t : MultiverseTheme) (h : s.Wf) : (pushState s ns t).Wf := by
  unfold FullState.Wf
  rw [pushState_length s ns t h]
  simp [pushState]

theorem pushState_atEnd (s : FullState) (ns : List MultiverseNode)
    (t : MultiverseTheme) (h : s.Wf) : AtEnd (pushState s ns t) := by
  unfold AtEnd
  rw [pushState_length s ns t h]
  rfl

theorem pushState_current (s : FullState) (ns : List MultiverseNode)
    (t : MultiverseTheme) (h : s.Wf) :
    (pushState s ns t).current = ⟨ns, t⟩ := by
  unfold FullState.current pushState
  simp only
  rw [List.getD_append_right _ _ _ _ (by rw [length_take_wf s h])]
  rw [length_take_wf s h]
  simp

theorem atEnd_wf (s : FullState) (h : AtEnd s) : s.Wf := by
  unfold AtEnd at h
  unfold FullState.Wf
  omega

theorem pushState_history_atEnd (s : FullState) (ns : List MultiverseNode)
    (t : MultiverseTheme) (h : AtEnd s) :
    (pushState s ns t).history = s.history ++ [⟨ns, t⟩] := by
  unfold pushState
  simp only
  rw [h, List.take_length]

theorem FullState.eq_of_fields (a b : FullState) (h1 : a.history = b.history)
    (h2 : a.historyIndex = b.historyIndex) (h3 : a.selectedIds = b.selectedIds) :
    a = b := by
  cases a; cases b; simp_all

theorem applyPushes_history (ps : List (List MultiverseNode × MultiverseTheme))
    (s : FullState) (h : AtEnd s) :
    (applyPushes s ps).history = s.history ++ ps.map (fun p => AppState.mk p.1 p.2) := by
  induction ps generalizing s with
  | nil => simp [applyPushes]
  | cons p ps ih =>
    have hw := atEnd_wf s h
    have h2 : AtEnd (pushState s p.1 p.2) := pushState_atEnd s p.1 p.2 hw
    unfold applyPushes at ih ⊢
    simp only [List.foldl_cons]
    rw [ih (pushState s p.1 p.2) h2, pushState_history_atEnd s p.1 p.2 h]
    simp

theorem applyPushes_historyIndex (ps : List (List MultiverseNode × MultiverseTheme))
    (s : FullState) :
    (applyPushes s ps).historyIndex = s.historyIndex + ps.length := by
  induction ps generalizing s with
  | nil => simp [applyPushes]
  | cons p ps ih =>
    unfold applyPushes at ih ⊢
    simp only [List.foldl_cons]
    rw [ih (pushState s p.1 p.2)]
    simp [pushState]
    omega

theorem applyPushes_selectedIds (ps : List (List MultiverseNode × MultiverseTheme))
    (s : FullState) :
    (applyPushes s ps).selectedIds = s.selectedIds := by
  induction ps generalizing s with
  | nil => simp [applyPushes]
  | cons p ps ih =>
    unfold applyPushes at ih ⊢
    simp only [List.foldl_cons]
    rw [ih (pushState s p.1 p.2)]
    rfl

theorem undoN_history (n : Nat) (s : FullState) : (undoN n s).history = s.history := by
  induction n generalizing s with
  | zero => rfl
  | succ n ih => unfold undoN; rw [ih (undo s), undo_history]

theorem undoN_selectedIds (n : Nat) (s : FullState) :
    (undoN n s).selectedIds = s.selectedIds := by
  induction n generalizing s with
  | zero => rfl
  | succ n ih => unfold undoN; rw [ih (undo s), undo_selectedIds]

theorem undoN_historyIndex (n : Nat) (s : FullState) :
    (undoN n s).historyIndex = s.historyIndex - n := by
  induction n generalizing s with
  | zero => rfl
  | succ n ih =>
    unfold undoN
    rw [ih (undo s), undo_historyIndex]
    omega

theorem redoN_history (n : Nat) (s : FullState) : (redoN n s).history = s.history := by
  induction n generalizing s with
  | zero => rfl
  | succ n ih => unfold redoN; rw [ih (redo s), redo_history]

theorem redoN_selectedIds (n : Nat) (s : FullState) :
    (redoN n s).selectedIds = s.selectedIds := by
  induction n generalizing s with
  | zero => rfl
  | succ n ih => unfold redoN; rw [ih (redo s), redo_selectedIds]

theorem redo_historyIndex_of_lt (s : FullState)
    (h : s.historyIndex < s.history.length - 1) :
    (redo s).historyIndex = s.historyIndex + 1 := by
  unfold redo
  split
  · rfl
  · omega

theorem redoN_historyIndex (n : Nat) (s : FullState)
    (h : s.historyIndex + n ≤ s.history.length - 1) :
    (redoN n s).historyIndex = s.historyIndex + n := by
  induction n generalizing s with
  | zero => rfl
  | succ n ih =>
    unfold redoN
    have hlt : s.historyIndex < s.history.length - 1 := by omega
    have hr := redo_historyIndex_of_lt s hlt
    rw [ih (redo s) (by rw [hr, redo_history]; omega), hr]
    omega

/-! ## Claims -/

/-- Claim C1: for every history state with cursor in bounds, `pushState`
truncates the sequence to `[0..cursor]`, appends the new `(nodes, theme)`
snapshot and sets the cursor to the new last index `cursor + 1`; in the
concrete scenario `[S0,S1,S2,S3]` at cursor 3, two undos followed by a
push of `S4` yield `[S0,S1,S4]` at cursor 2, and a redo is then a no-op. -/
theorem c1_push_truncates_and_appends (s : FullState) (ns : List MultiverseNode)
    (t : MultiverseTheme) (h : s.Wf) :
    (pushState s ns t).history = s.history.take (s.historyIndex + 1) ++ [⟨ns, t⟩]
  ∧ (pushState s ns t).historyIndex = s.historyIndex + 1
  ∧ (pushState s ns t).historyIndex = (pushState s ns t).history.length - 1
  ∧ (∀ (S0 S1 S2 S3 : AppState) (ns4 : List MultiverseNode) (t4 : MultiverseTheme)
       (sel : List String),
       (pushState (undo (undo ⟨[S0, S1, S2, S3], 3, sel⟩)) ns4 t4).history
         = [S0, S1, ⟨ns4, t4⟩]
     ∧ (pushState (undo (undo ⟨[S0, S1, S2, S3], 3, sel⟩)) ns4 t4).historyIndex = 2
     ∧ redo (pushState (undo (undo ⟨[S0, S1, S2, S3], 3, sel⟩)) ns4 t4)
         = pushState (undo (undo ⟨[S0, S1, S2, S3], 3, sel⟩)) ns4 t4) := by
  refine ⟨rfl, rfl, ?_, ?_⟩
  · have hx : (pushState s ns t).historyIndex = s.historyIndex + 1 := rfl
    rw [hx, pushState_length s ns t h]
    omega
  · intro S0 S1 S2 S3 ns4 t4 sel
    exact ⟨rfl, rfl, rfl⟩

/-- Witness for C1 at the initial state. -/
theorem c1_witness :
    initialState.Wf
  ∧ (pushState initialState [] DEFAULT_THEME).history
      = initialState.history.take (initialState.historyIndex + 1) ++ [⟨[], DEFAULT_THEME⟩]
  ∧ (pushState initialState [] DEFAULT_THEME).historyIndex
      = (pushState initialState [] DEFAULT_THEME).history.length - 1 := by
  have h : initialState.Wf := by
    show initialState.historyIndex < initialState.history.length
    decide
  have := c1_push_truncates_and_appends initialState [] DEFAULT_THEME h
  exact ⟨h, this.1, this.2.2.1⟩

/-- Claim C2: from a seed snapshot, after any sequence of N pushes,
N undos bring the current snapshot back to the seed; N further redos
restore the state after the Nth push exactly (so the current snapshot is
the one the Nth push produced); undo and redo only move the cursor —
decrement when it is positive, increment when it is below `length - 1`,
no-op otherwise — and never change the snapshot sequence. -/
theorem c2_undo_redo_roundtrip (seed : AppState) (sel : List String)
    (ps : List (List MultiverseNode × MultiverseTheme)) :
    (undoN ps.length (applyPushes ⟨[seed], 0, sel⟩ ps)).current = seed
  ∧ redoN ps.length (undoN ps.length (applyPushes ⟨[seed], 0, sel⟩ ps))
      = applyPushes ⟨[seed], 0, sel⟩ ps
  ∧ (∀ p, ps.getLast? = some p →
       (applyPushes ⟨[seed], 0, sel⟩ ps).current = ⟨p.1, p.2⟩)
  ∧ (∀ s : FullState, (undo s).history = s.history ∧ (redo s).history = s.history)
  ∧ (∀ s : FullState, 0 < s.historyIndex → (undo s).historyIndex = s.historyIndex - 1)
  ∧ (∀ s : FullState, s.historyIndex = 0 → undo s = s)
  ∧ (∀ s : FullState, s.historyIndex < s.history.length - 1 →
       (redo s).historyIndex = s.historyIndex + 1)
  ∧ (∀ s : FullState, ¬ s.historyIndex < s.history.length - 1 → redo s = s) := by
  have hAtEnd : AtEnd (⟨[seed], 0, sel⟩ : FullState) := rfl
  have hhist := applyPushes_history ps ⟨[seed], 0, sel⟩ hAtEnd
  have hidx := applyPushes_historyIndex ps ⟨[seed], 0, sel⟩
  have hsel := applyPushes_selectedIds ps ⟨[seed], 0, sel⟩
  simp only at hhist hidx hsel
  refine ⟨?_, ?_, ?_, ?_, ?_, ?_, ?_, ?_⟩
  · unfold FullState.current
    rw [undoN_history, undoN_historyIndex, hhist, hidx]
    simp
  · apply FullState.eq_of_fields
    · rw [redoN_history, undoN_history]
    · rw [redoN_historyIndex, undoN_historyIndex, hidx]
      · omega
      · rw [undoN_historyIndex, undoN_history, hhist, hidx]
        simp
    · rw [redoN_selectedIds, undoN_selectedIds]
  · intro p hp
    cases ps with
    | nil => simp at hp
    | cons q qs =>
      unfold FullState.current
      rw [hhist, hidx]
      have hlen : ((q :: qs).map (fun p => AppState.mk p.1 p.2)).length = qs.length + 1 := by
        simp
      have hlt : (q :: qs).length - 1 < (q :: qs).length := by simp
      rw [List.getLast?_eq_getElem? ] at hp
      have hgetl : (q :: qs)[(q :: qs).length - 1] = p := by
        have := List.getElem?_eq_getElem (l := q :: qs) (n := (q :: qs).length - 1) hlt
        rw [this] at hp
        exact Option.some_injective _ hp
      have hidx2 : (0 + (q :: qs).length) = ((q :: qs).length - 1) + 1 := by simp
      rw [hidx2, List.singleton_append, List.getD_cons_succ]
      rw [List.getD_eq_getElem _ _ (by simp)]
      rw [List.getElem_map]
      rw [hgetl]
  · intro s; exact ⟨undo_history s, redo_history s⟩
  · intro s h; rw [undo_historyIndex]
  · intro s h; unfold undo; split
    · omega
    · rfl
  · intro s h; exact redo_historyIndex_of_lt s h
  · intro s h; unfold redo; split
    · omega
    · rfl

/-- Witness for C2: two pushes on a seed, two undos, two redos. -/
theorem c2_witness :
    (undoN 2 (applyPushes ⟨[⟨[], DEFAULT_THEME⟩], 0, []⟩
        [([initialRoot], DEFAULT_THEME), ([], DEFAULT_THEME)])).current
      = ⟨[], DEFAULT_THEME⟩
  ∧ ([([initialRoot], DEFAULT_THEME), ([], DEFAULT_THEME)].getLast?
       = some ([], DEFAULT_THEME))
  ∧ (applyPushes ⟨[⟨[], DEFAULT_THEME⟩], 0, []⟩
       [([initialRoot], DEFAULT_THEME), ([], DEFAULT_THEME)]).current
      = ⟨[], DEFAULT_THEME⟩ := by
  have h := c2_undo_redo_roundtrip ⟨[], DEFAULT_THEME⟩ []
    [([initialRoot], DEFAULT_THEME), ([], DEFAULT_THEME)]
  exact ⟨h.1, rfl, h.2.2.1 ([], DEFAULT_THEME) rfl⟩

theorem handleUpdateNode_eq (s : FullState) (nodeId : String) (u : NodeUpdates) :
    handleUpdateNode s nodeId u
      = pushState s
          (s.current.nodes.map (fun n => if n.id == nodeId then applyUpdates n u else n))
          s.current.theme := rfl

/-- Claim C3 counterexample: no node of the initial snapshot has the
identifier "ghost", yet `handleUpdateNode` on "ghost" grows the history
by one — the source pushes unconditionally, so a missing id is not a
no-op. -/
theorem c3_counterexample :
    initialState.current.nodes.find? (fun n => n.id == "ghost") = none
  ∧ (handleUpdateNode initialState "ghost" {}).history.length
      = initialState.history.length + 1 := by
  exact ⟨rfl, rfl⟩

/-- Claim C3 (amended): `handleUpdateNode` always pushes exactly one new
snapshot, whether or not a node with the given identifier exists — when
the identifier is absent the pushed snapshot carries the same node list
as before (a duplicate entry); when it exists the push also happens even
if the supplied fields leave every node unchanged. -/
theorem c3_update_always_pushes (s : FullState) (nodeId : String) (u : NodeUpdates)
    (h : s.Wf) :
    (handleUpdateNode s nodeId u).history
      = s.history.take (s.historyIndex + 1)
        ++ [⟨s.current.nodes.map (fun n => if n.id == nodeId then applyUpdates n u else n),
            s.current.theme⟩]
  ∧ (handleUpdateNode s nodeId u).history.length = s.historyIndex + 2
  ∧ (s.current.nodes.find? (fun n => n.id == nodeId) = none →
      (handleUpdateNode s nodeId u).current.nodes = s.current.nodes) := by
  refine ⟨rfl, ?_, ?_⟩
  · rw [handleUpdateNode_eq]
    exact pushState_length s _ _ h
  · intro hnone
    rw [List.find?_eq_none] at hnone
    have hmap : s.current.nodes.map
        (fun n => if n.id == nodeId then applyUpdates n u else n) = s.current.nodes := by
      conv_rhs => rw [← List.map_id s.current.nodes]
      apply List.map_congr_left
      intro a ha
      simp [hnone a ha]
    rw [handleUpdateNode_eq, pushState_current s _ _ h, hmap]

/-- Witness for C3's amended theorem at the initial state and the absent
identifier "ghost". -/
theorem c3_witness :
    initialState.Wf
  ∧ (handleUpdateNode initialState "ghost" {}).history.length
      = initialState.historyIndex + 2
  ∧ (handleUpdateNode initialState "ghost" {}).current.nodes
      = initialState.current.nodes := by
  have h : initialState.Wf := by
    show initialState.historyIndex < initialState.history.length
    decide
  have hc := c3_update_always_pushes initialState "ghost" {} h
  exact ⟨h, hc.2.1, hc.2.2 rfl⟩

/-- Claim C4 (code bug): the id of a created node is `node-` followed by
the millisecond clock reading only, so two creations in the same
millisecond assign the same identifier: after two `handleCreateNode`
calls at clock value 0, the id "node-0" occurs twice in the current node
list, contradicting "the identifier is distinct from the identifiers of
all nodes already present". -/
theorem c4_id_collision :
    ((handleCreateNode (handleCreateNode initialState "root" sampleData 0 sampleRnd)
        "root" sampleData 0 sampleRnd).current.nodes.map
          (fun n => n.id)).count "node-0" = 2 := by
  rfl

theorem linkMapStep_id (a b : String) (n : MultiverseNode) :
    (linkMapStep a b n).id = n.id := by
  unfold linkMapStep
  split
  · split <;> rfl
  · rfl

theorem linkMapStep_parentId (a b : String) (n : MultiverseNode) :
    (linkMapStep a b n).parentId = n.parentId := by
  unfold linkMapStep
  split
  · split <;> rfl
  · rfl

theorem linkMapStep_of_contains (a b : String) (n : MultiverseNode)
    (hid : (n.id == a) = true) (hc : ((n.linkedIds.getD []).contains b) = true) :
    linkMapStep a b n = n := by
  unfold linkMapStep
  rw [if_pos hid, hc]
  simp

theorem linkMapStep_of_not_contains (a b : String) (n : MultiverseNode)
    (hid : (n.id == a) = true) (hc : ((n.linkedIds.getD []).contains b) = false) :
    linkMapStep a b n = { n with linkedIds := some (n.linkedIds.getD [] ++ [b]) } := by
  unfold linkMapStep
  rw [if_pos hid, hc]
  simp

theorem handleLink_eq_linkPair (s : FullState) (src tgt : MultiverseNode)
    (hsel : selectedNodes s = [src, tgt]) :
    handleLinkSelectedNodes s = linkPair s src tgt := by
  unfold handleLinkSelectedNodes
  rw [hsel]

theorem find?_map_linkMapStep (a b : String) (ns : List MultiverseNode) :
    (ns.map (linkMapStep a b)).find? (fun n => n.id == a)
      = (ns.find? (fun n => n.id == a)).map (linkMapStep a b) := by
  rw [List.find?_map]
  have hfun : ((fun n : MultiverseNode => n.id == a) ∘ linkMapStep a b)
      = (fun n : MultiverseNode => n.id == a) := by
    funext n
    simp [Function.comp, linkMapStep_id]
  rw [hfun]

theorem linkPair_match_some (s : FullState) (source target sn origN : MultiverseNode)
    (h1 : (s.current.nodes.map (linkMapStep source.id target.id)).find?
        (fun n => n.id == source.id) = some sn)
    (h2 : s.current.nodes.find? (fun n => n.id == source.id) = some origN) :
    linkPair s source target
      = { (if (sn.linkedIds.map List.length) ≠ (origN.linkedIds.map List.length) then
            pushState s (s.current.nodes.map (linkMapStep source.id target.id))
              s.current.theme
          else s) with selectedIds := [source.id] } := by
  unfold linkPair
  rw [h1, h2]

theorem linkPair_no_push (s : FullState) (src tgt orig : MultiverseNode)
    (hfind : s.current.nodes.find? (fun n => n.id == src.id) = some orig)
    (hc : ((orig.linkedIds.getD []).contains tgt.id) = true) :
    linkPair s src tgt = { s with selectedIds := [src.id] } := by
  have hid0 := List.find?_some hfind
  have hid : (orig.id == src.id) = true := hid0
  have horig : linkMapStep src.id tgt.id orig = orig :=
    linkMapStep_of_contains _ _ _ hid hc
  have h1 : (s.current.nodes.map (linkMapStep src.id tgt.id)).find?
      (fun n => n.id == src.id) = some orig := by
    rw [find?_map_linkMapStep, hfind, Option.map_some', horig]
  rw [linkPair_match_some s src tgt orig orig h1 hfind]
  simp

theorem linkPair_push (s : FullState) (src tgt orig : MultiverseNode)
    (hfind : s.current.nodes.find? (fun n => n.id == src.id) = some orig)
    (hc : ((orig.linkedIds.getD []).contains tgt.id) = false) :
    linkPair s src tgt
      = { pushState s (s.current.nodes.map (linkMapStep src.id tgt.id)) s.current.theme
          with selectedIds := [src.id] } := by
  have hid0 := List.find?_some hfind
  have hid : (orig.id == src.id) = true := hid0
  have horig : linkMapStep src.id tgt.id orig
      = { orig with linkedIds := some (orig.linkedIds.getD [] ++ [tgt.id]) } :=
    linkMapStep_of_not_contains _ _ _ hid hc
  have h1 : (s.current.nodes.map (linkMapStep src.id tgt.id)).find?
      (fun n => n.id == src.id)
      = some { orig with linkedIds := some (orig.linkedIds.getD [] ++ [tgt.id]) } := by
    rw [find?_map_linkMapStep, hfind, Option.map_some', horig]
  rw [linkPair_match_some s src tgt _ orig h1 hfind]
  have hne : ((some (orig.linkedIds.getD [] ++ [tgt.id])).map List.length)
      ≠ orig.linkedIds.map List.length := by
    cases hli : orig.linkedIds with
    | none => simp
    | some l => simp
  rw [if_pos hne]

theorem selectedNodes_map_of (s s2 : FullState) (f : MultiverseNode → MultiverseNode)
    (hid : ∀ n, (f n).id = n.id)
    (hn : s2.current.nodes = s.current.nodes.map f)
    (hs : s2.selectedIds = s.selectedIds) :
    selectedNodes s2 = (selectedNodes s).map f := by
  unfold selectedNodes
  rw [hn, hs, List.map_filterMap]
  have hfun0 : ∀ i : String, ((fun n : MultiverseNode => n.id == i) ∘ f)
      = (fun n : MultiverseNode => n.id == i) := by
    intro i
    funext n
    simp [Function.comp, hid]
  have hfun : (fun i => (s.current.nodes.map f).find? (fun n => n.id == i))
      = (fun i => (s.current.nodes.find? (fun n => n.id == i)).map f) := by
    funext i
    rw [List.find?_map, hfun0 i]
  rw [hfun]

theorem contains_append_singleton (l : List String) (b : String) :
    ((l ++ [b]).contains b) = true := by
  simp [List.contains_eq_any_beq, List.any_append]

theorem handleLink_of_len_ne_two (s : FullState)
    (h : (selectedNodes s).length ≠ 2) : handleLinkSelectedNodes s = s := by
  unfold handleLinkSelectedNodes
  split
  · rename_i src tgt heq
    exact absurd (by simp [heq]) h
  · rfl

theorem handleCreateNode_of_missing_parent (s : FullState) (pid : String)
    (d : CreateNodeData) (now : Nat) (rnd : RandomSamples)
    (h : s.current.nodes.find? (fun n => n.id == pid) = none) :
    handleCreateNode s pid d now rnd = s := by
  unfold handleCreateNode
  rw [h]

/-- Claim C5: invalid intents are silently discarded with no history
change — `CreateNode` with an unresolvable `parentId` leaves the state
unchanged; `LinkNodes` with a selection of size ≠ 2, or with a selected
identifier that resolves to no node, leaves the state unchanged; linking
when the link already exists leaves the history unchanged; and linking
the same ordered pair twice (re-selecting it in between) grows the
history by exactly 1, not 2. -/
theorem c5_invalid_intents_discarded :
    (∀ (s : FullState) (pid : String) (d : CreateNodeData) (now : Nat)
       (rnd : RandomSamples),
       s.current.nodes.find? (fun n => n.id == pid) = none →
       handleCreateNode s pid d now rnd = s)
  ∧ (∀ s : FullState, (selectedNodes s).length ≠ 2 → handleLinkSelectedNodes s = s)
  ∧ (∀ (s : FullState) (i j : String), s.selectedIds = [i, j] →
       (s.current.nodes.find? (fun n => n.id == i) = none
         ∨ s.current.nodes.find? (fun n => n.id == j) = none) →
       handleLinkSelectedNodes s = s)
  ∧ (∀ (s : FullState) (src tgt orig : MultiverseNode),
       selectedNodes s = [src, tgt] →
       s.current.nodes.find? (fun n => n.id == src.id) = some orig →
       ((orig.linkedIds.getD []).contains tgt.id) = true →
       (handleLinkSelectedNodes s).history = s.history)
  ∧ (∀ (s : FullState) (src tgt : MultiverseNode),
       AtEnd s →
       selectedNodes s = [src, tgt] →
       s.current.nodes.find? (fun n => n.id == src.id) = some src →
       ((src.linkedIds.getD []).contains tgt.id) = false →
       (handleLinkSelectedNodes
          (withSelection (handleLinkSelectedNodes s) s.selectedIds)).history.length
         = s.history.length + 1) := by
  refine ⟨handleCreateNode_of_missing_parent, handleLink_of_len_ne_two, ?_, ?_, ?_⟩
  · intro s i j hsel hor
    apply handleLink_of_len_ne_two
    unfold selectedNodes
    rw [hsel]
    rcases hor with h | h
    · cases hgj : s.current.nodes.find? (fun n => n.id == j) <;>
        simp [List.filterMap_cons, h, hgj]
    · cases hgi : s.current.nodes.find? (fun n => n.id == i) <;>
        simp [List.filterMap_cons, h, hgi]
  · intro s src tgt orig hsel hfind hc
    rw [handleLink_eq_linkPair s src tgt hsel, linkPair_no_push s src tgt orig hfind hc]
  · intro s src tgt hend hsel hfind hc
    have hwf := atEnd_wf s hend
    have hstep : handleLinkSelectedNodes s
        = { pushState s (s.current.nodes.map (linkMapStep src.id tgt.id)) s.current.theme
            with selectedIds := [src.id] } := by
      rw [handleLink_eq_linkPair s src tgt hsel, linkPair_push s src tgt src hfind hc]
    have hidss : (src.id == src.id) = true := by simp
    have hfsrc : linkMapStep src.id tgt.id src
        = { src with linkedIds := some (src.linkedIds.getD [] ++ [tgt.id]) } :=
      linkMapStep_of_not_contains _ _ _ hidss hc
    set UN := s.current.nodes.map (linkMapStep src.id tgt.id) with hUN
    set p := pushState s UN s.current.theme with hp
    have hs2hist : (withSelection (handleLinkSelectedNodes s) s.selectedIds).history
        = p.history := by rw [hstep]; rfl
    have hs2idx : (withSelection (handleLinkSelectedNodes s) s.selectedIds).historyIndex
        = p.historyIndex := by rw [hstep]; rfl
    have hs2sel : (withSelection (handleLinkSelectedNodes s) s.selectedIds).selectedIds
        = s.selectedIds := rfl
    have hs2cur : (withSelection (handleLinkSelectedNodes s) s.selectedIds).current
        = ⟨UN, s.current.theme⟩ := by
      unfold FullState.current
      rw [hs2hist, hs2idx]
      exact pushState_current s UN s.current.theme hwf
    have hselN : selectedNodes (withSelection (handleLinkSelectedNodes s) s.selectedIds)
        = [linkMapStep src.id tgt.id src, linkMapStep src.id tgt.id tgt] := by
      have hmap := selectedNodes_map_of s
        (withSelection (handleLinkSelectedNodes s) s.selectedIds)
        (linkMapStep src.id tgt.id) (linkMapStep_id src.id tgt.id)
        (by rw [hs2cur]) hs2sel
      rw [hmap, hsel]
      rfl
    have hfind2 : (withSelection (handleLinkSelectedNodes s) s.selectedIds).current.nodes.find?
          (fun n => n.id == (linkMapStep src.id tgt.id src).id)
        = some (linkMapStep src.id tgt.id src) := by
      rw [hs2cur, linkMapStep_id]
      show UN.find? (fun n => n.id == src.id) = _
      rw [hUN, find?_map_linkMapStep, hfind, Option.map_some']
    have hc2 : (((linkMapStep src.id tgt.id src).linkedIds.getD []).contains
          (linkMapStep src.id tgt.id tgt).id) = true := by
      rw [linkMapStep_id, hfsrc]
      simp only [Option.getD_some]
      exact contains_append_singleton _ _
    rw [handleLink_eq_linkPair _ _ _ hselN, linkPair_no_push _ _ _ _ hfind2 hc2]
    show (withSelection (handleLinkSelectedNodes s) s.selectedIds).history.length
        = s.history.length + 1
    rw [hs2hist, hp, pushState_history_atEnd s UN s.current.theme hend]
    simp

/-- Witness for C5: concrete instances of each conjunct — a create with
an unresolvable parent, a link with an empty selection, a link whose pair
is already linked, and a fresh pair linked twice. -/
theorem c5_witness :
    initialState.current.nodes.find? (fun n => n.id == "ghost") = none
  ∧ handleCreateNode initialState "ghost" sampleData 0 sampleRnd = initialState
  ∧ (selectedNodes initialState).length ≠ 2
  ∧ handleLinkSelectedNodes initialState = initialState
  ∧ selectedNodes linkedState = [initialRootLinked, initialProb1]
  ∧ (handleLinkSelectedNodes linkedState).history = linkedState.history
  ∧ selectedNodes linkSelState = [initialRoot, initialProb1]
  ∧ (handleLinkSelectedNodes
       (withSelection (handleLinkSelectedNodes linkSelState)
         linkSelState.selectedIds)).history.length
      = linkSelState.history.length + 1 := by
  obtain ⟨h1, h2, _h3, h4, h5⟩ := c5_invalid_intents_discarded
  refine ⟨rfl, h1 initialState "ghost" sampleData 0 sampleRnd rfl, by decide,
    h2 initialState (by decide), rfl,
    h4 linkedState initialRootLinked initialProb1 initialRootLinked rfl rfl rfl,
    rfl,
    h5 linkSelState initialRoot initialProb1 rfl rfl rfl rfl⟩

/-- Claim C6: a failed or absent theme-generation result (in particular
the `null` the service returns when credentials are missing, or after a
caught transport error) changes nothing: no history push, no color
change, the state after equals the state before. -/
theorem c6_theme_failure_unchanged :
    (∀ s : FullState, handleGenerateTheme s none = s)
  ∧ (∀ (s : FullState) (r : GenerateContentResult MultiverseTheme),
       handleGenerateTheme s (generateMultiverseTheme "" r) = s)
  ∧ (∀ (s : FullState) (k : String),
       handleGenerateTheme s (generateMultiverseTheme k .threw) = s) := by
  have hnone : ∀ s : FullState, handleGenerateTheme s none = s := fun s => rfl
  refine ⟨hnone, ?_, ?_⟩
  · intro s r
    have hmk : generateMultiverseTheme "" r = none := rfl
    rw [hmk]
    exact hnone s
  · intro s k
    have hmk : generateMultiverseTheme k .threw = none := by
      unfold generateMultiverseTheme
      split <;> rfl
    rw [hmk]
    exact hnone s

/-- Claim C7 counterexample: `UpdateNode` accepts arbitrary partial
fields, including `parentId`; updating the node "prob-1" with
`parentId := null` from the initial state yields a reachable snapshot
with two root nodes, so the invariant does not hold for every `UpdateNode`
intent. -/
theorem c7_counterexample :
    countRoots ((runIntents initialState
      [Intent.update "prob-1" { parentId := some none }]).current.nodes) = 2 := by
  rfl

theorem countRoots_append_nonroot (ns : List MultiverseNode) (x : MultiverseNode)
    (hx : x.parentId.isNone = false) : countRoots (ns ++ [x]) = countRoots ns := by
  unfold countRoots
  rw [List.filter_append]
  simp [List.filter, hx]

theorem countRoots_map (f : MultiverseNode → MultiverseNode)
    (hf : ∀ n, (f n).parentId = n.parentId) (ns : List MultiverseNode) :
    countRoots (ns.map f) = countRoots ns := by
  unfold countRoots
  rw [List.filter_map]
  have hfun : ((fun n : MultiverseNode => n.parentId.isNone) ∘ f)
      = (fun n : MultiverseNode => n.parentId.isNone) := by
    funext n
    simp [Function.comp, hf]
  rw [hfun, List.length_map]

theorem current_mem_history (s : FullState) (h : s.Wf) : s.current ∈ s.history := by
  unfold FullState.current
  rw [List.getD_eq_getElem _ _ h]
  exact List.getElem_mem h

theorem allOneRoot_current (s : FullState) (hw : s.Wf) (ha : AllOneRoot s) :
    countRoots s.current.nodes = 1 :=
  ha s.current (current_mem_history s hw)

theorem pushState_allOneRoot (s : FullState) (ns : List MultiverseNode)
    (t : MultiverseTheme) (ha : AllOneRoot s) (hn : countRoots ns = 1) :
    AllOneRoot (pushState s ns t) := by
  intro snap hsnap
  unfold pushState at hsnap
  simp only at hsnap
  rw [List.mem_append] at hsnap
  rcases hsnap with hmem | hmem
  · exact ha snap (List.mem_of_mem_take hmem)
  · have heq : snap = ⟨ns, t⟩ := by simpa using hmem
    subst heq
    exact hn

theorem step_preserves_wf_oneRoot (s : FullState) (i : Intent)
    (hw : s.Wf) (ha : AllOneRoot s) (hi : NoParentOverride i) :
    (step s i).Wf ∧ AllOneRoot (step s i) := by
  have hcur : countRoots s.current.nodes = 1 := allOneRoot_current s hw ha
  cases i with
  | create pid d now rnd =>
    show (handleCreateNode s pid d now rnd).Wf ∧ AllOneRoot (handleCreateNode s pid d now rnd)
    unfold handleCreateNode
    cases hfind : s.current.nodes.find? (fun n => n.id == pid) with
    | none => exact ⟨hw, ha⟩
    | some parentNode =>
      constructor
      · exact pushState_wf s _ _ hw
      · exact pushState_allOneRoot s _ _ ha
          ((countRoots_append_nonroot s.current.nodes
            (newNodeOf s pid d now rnd parentNode) rfl).trans hcur)
  | link =>
    show (handleLinkSelectedNodes s).Wf ∧ AllOneRoot (handleLinkSelectedNodes s)
    unfold handleLinkSelectedNodes
    split
    · rename_i src tgt heq
      unfold linkPair
      split
      · split
        · constructor
          · exact pushState_wf s _ _ hw
          · exact pushState_allOneRoot s _ _ ha
              (by rw [countRoots_map _ (linkMapStep_parentId _ _)]; exact hcur)
        · exact ⟨hw, ha⟩
      · exact ⟨hw, ha⟩
    · exact ⟨hw, ha⟩
  | update nodeId u =>
    have hpn : u.parentId = none := hi
    have hpar : ∀ n : MultiverseNode,
        ((fun n => if n.id == nodeId then applyUpdates n u else n) n).parentId
          = n.parentId := by
      intro n
      by_cases hmatch : (n.id == nodeId) = true
      · simp only [hmatch, if_pos]
        unfold applyUpdates
        rw [hpn]
        rfl
      · simp [hmatch]
    show (handleUpdateNode s nodeId u).Wf ∧ AllOneRoot (handleUpdateNode s nodeId u)
    rw [handleUpdateNode_eq]
    constructor
    · exact pushState_wf s _ _ hw
    · exact pushState_allOneRoot s _ _ ha (by rw [countRoots_map _ hpar]; exact hcur)
  | genTheme result =>
    show (handleGenerateTheme s result).Wf ∧ AllOneRoot (handleGenerateTheme s result)
    cases result with
    | none => exact ⟨hw, ha⟩
    | some t =>
      constructor
      · exact pushState_wf s _ _ hw
      · exact pushState_allOneRoot s _ _ ha
          ((countRoots_map (fun n => { n with color := t.nodeColors.get n.type })
            (fun n => rfl) s.current.nodes).trans hcur)
  | doUndo =>
    constructor
    · show (undo s).Wf
      unfold FullState.Wf
      rw [undo_history, undo_historyIndex]
      unfold FullState.Wf at hw
      omega
    · show AllOneRoot (undo s)
      intro snap hsnap
      rw [undo_history] at hsnap
      exact ha snap hsnap
  | doRedo =>
    constructor
    · show (redo s).Wf
      unfold redo
      split
      · rename_i hlt
        show s.historyIndex + 1 < s.history.length
        omega
      · exact hw
    · show AllOneRoot (redo s)
      intro snap hsnap
      rw [redo_history] at hsnap
      exact ha snap hsnap
  | select node isMulti => exact ⟨hw, ha⟩
  | clearSelection => exact ⟨hw, ha⟩

theorem runIntents_preserves (l : List Intent) (s : FullState)
    (hw : s.Wf) (ha : AllOneRoot s) (hl : ∀ i ∈ l, NoParentOverride i) :
    (runIntents s l).Wf ∧ AllOneRoot (runIntents s l) := by
  induction l generalizing s with
  | nil => exact ⟨hw, ha⟩
  | cons i l ih =>
    have hi : NoParentOverride i := hl i (by simp)
    have hrest : ∀ j ∈ l, NoParentOverride j := fun j hj => hl j (by simp [hj])
    have hstep := step_preserves_wf_oneRoot s i hw ha hi
    unfold runIntents at ih ⊢
    simp only [List.foldl_cons]
    exact ih (step s i) hstep.1 hstep.2 hrest

/-- Claim C7 (amended): along every intent sequence from the initial
state whose `UpdateNode` intents never supply the `parentId` field,
every reachable current snapshot has exactly one root node.  (The
unamended claim fails because `UpdateNode` can overwrite `parentId`; see
the counterexample.) -/
theorem c7_one_root_invariant (l : List Intent)
    (hl : ∀ i ∈ l, NoParentOverride i) :
    countRoots ((runIntents initialState l).current.nodes) = 1 := by
  have hw : initialState.Wf := by
    show initialState.historyIndex < initialState.history.length
    decide
  have ha : AllOneRoot initialState := by
    intro snap hsnap
    have hs : snap = ⟨INITIAL_NODES, DEFAULT_THEME⟩ := by
      simpa [initialState] using hsnap
    subst hs
    rfl
  have h := runIntents_preserves l initialState hw ha hl
  exact allOneRoot_current _ h.1 h.2

/-- Witness for C7's amended theorem: a create, an undo and a redo. -/
theorem c7_witness :
    (∀ i ∈ ([Intent.create "root" sampleData 5 sampleRnd, Intent.doUndo,
        Intent.doRedo] : List Intent), NoParentOverride i)
  ∧ countRoots ((runIntents initialState
      [Intent.create "root" sampleData 5 sampleRnd, Intent.doUndo,
        Intent.doRedo]).current.nodes) = 1 := by
  have hl : ∀ i ∈ ([Intent.create "root" sampleData 5 sampleRnd, Intent.doUndo,
      Intent.doRedo] : List Intent), NoParentOverride i := by
    intro i hi
    simp at hi
    rcases hi with h | h | h <;> subst h <;> trivial
  exact ⟨hl, c7_one_root_invariant _ hl⟩

theorem spreadXY_pos (type : FutureType) : 0 < spreadXY type := by
  cases type <;> norm_num [spreadXY]

/-- Claim C8: with all three random samples in `[0,1)`, the generated
child position is the parent position offset radially by
`cos θ * r`, `sin θ * r` with `θ = sample·2π ∈ [0,2π)` and
`r = sample·S ∈ [0,S)`, and forward by `F` plus a jitter in `[0,2)`;
for `PROBABLE` (spread 3, step 8) the z-offset lies in `[8,10]` and the
x–y distance from the parent is strictly below 3. -/
theorem c8_child_position (parent : MultiverseNode) (rnd : RandomSamples)
    (ha0 : 0 ≤ rnd.angleSample) (ha1 : rnd.angleSample < 1)
    (hr0 : 0 ≤ rnd.radiusSample) (hr1 : rnd.radiusSample < 1)
    (hz0 : 0 ≤ rnd.zSample) (hz1 : rnd.zSample < 1) :
    (∀ type : FutureType,
       calculateChildPosition parent type rnd
         = (parent.position.1
              + Real.cos (rnd.angleSample * Real.pi * 2)
                * (rnd.radiusSample * spreadXY type),
            parent.position.2.1
              + Real.sin (rnd.angleSample * Real.pi * 2)
                * (rnd.radiusSample * spreadXY type),
            parent.position.2.2 + (stepZ type + rnd.zSample * 2))
     ∧ 0 ≤ rnd.angleSample * Real.pi * 2
     ∧ rnd.angleSample * Real.pi * 2 < 2 * Real.pi
     ∧ 0 ≤ rnd.radiusSample * spreadXY type
     ∧ rnd.radiusSample * spreadXY type < spreadXY type
     ∧ stepZ type ≤ (calculateChildPosition parent type rnd).2.2 - parent.position.2.2
     ∧ (calculateChildPosition parent type rnd).2.2 - parent.position.2.2
         < stepZ type + 2)
  ∧ 8 ≤ (calculateChildPosition parent .PROBABLE rnd).2.2 - parent.position.2.2
  ∧ (calculateChildPosition parent .PROBABLE rnd).2.2 - parent.position.2.2 ≤ 10
  ∧ Real.sqrt
      (((calculateChildPosition parent .PROBABLE rnd).1 - parent.position.1) ^ 2
        + ((calculateChildPosition parent .PROBABLE rnd).2.1
            - parent.position.2.1) ^ 2) < 3 := by
  have hpi := Real.pi_pos
  have hgen : ∀ type : FutureType,
      calculateChildPosition parent type rnd
        = (parent.position.1
            + Real.cos (rnd.angleSample * Real.pi * 2)
              * (rnd.radiusSample * spreadXY type),
          parent.position.2.1
            + Real.sin (rnd.angleSample * Real.pi * 2)
              * (rnd.radiusSample * spreadXY type),
          parent.position.2.2 + (stepZ type + rnd.zSample * 2)) := fun type => rfl
  have hzoff : ∀ type : FutureType,
      (calculateChildPosition parent type rnd).2.2 - parent.position.2.2
        = stepZ type + rnd.zSample * 2 := by
    intro type
    rw [hgen type]
    ring
  refine ⟨?_, ?_, ?_, ?_⟩
  · intro type
    have hS := spreadXY_pos type
    refine ⟨hgen type, ?_, ?_, ?_, ?_, ?_, ?_⟩
    · have h2 : (0:ℝ) ≤ 2 := by norm_num
      exact mul_nonneg (mul_nonneg ha0 hpi.le) h2
    · nlinarith [mul_pos (sub_pos.mpr ha1) hpi]
    · exact mul_nonneg hr0 hS.le
    · nlinarith [mul_pos (sub_pos.mpr hr1) hS]
    · rw [hzoff type]
      nlinarith
    · rw [hzoff type]
      nlinarith
  · rw [hzoff .PROBABLE]
    have h8 : stepZ .PROBABLE = 8 := rfl
    rw [h8]
    nlinarith
  · rw [hzoff .PROBABLE]
    have h8 : stepZ .PROBABLE = 8 := rfl
    rw [h8]
    nlinarith
  · have hx : (calculateChildPosition parent .PROBABLE rnd).1 - parent.position.1
        = Real.cos (rnd.angleSample * Real.pi * 2)
          * (rnd.radiusSample * spreadXY .PROBABLE) := by
      rw [hgen .PROBABLE]
      ring
    have hy : (calculateChildPosition parent .PROBABLE rnd).2.1 - parent.position.2.1
        = Real.sin (rnd.angleSample * Real.pi * 2)
          * (rnd.radiusSample * spreadXY .PROBABLE) := by
      rw [hgen .PROBABLE]
      ring
    have hrnn : 0 ≤ rnd.radiusSample * spreadXY FutureType.PROBABLE :=
      mul_nonneg hr0 (spreadXY_pos .PROBABLE).le
    have htrig := Real.cos_sq_add_sin_sq (rnd.angleSample * Real.pi * 2)
    have hsum : ((calculateChildPosition parent .PROBABLE rnd).1 - parent.position.1) ^ 2
        + ((calculateChildPosition parent .PROBABLE rnd).2.1 - parent.position.2.1) ^ 2
        = (rnd.radiusSample * spreadXY .PROBABLE) ^ 2 := by
      rw [hx, hy]
      nlinarith [htrig]
    rw [hsum, Real.sqrt_sq hrnn]
    have hS3 : spreadXY FutureType.PROBABLE = 3 := rfl
    nlinarith [hS3]

/-- Witness for C8 with all three samples 0 and the initial root as
parent. -/
theorem c8_witness :
    ((0:ℝ) ≤ 0 ∧ (0:ℝ) < 1)
  ∧ 8 ≤ (calculateChildPosition initialRoot .PROBABLE ⟨0, 0, 0⟩).2.2
        - initialRoot.position.2.2
  ∧ Real.sqrt
      (((calculateChildPosition initialRoot .PROBABLE ⟨0, 0, 0⟩).1
          - initialRoot.position.1) ^ 2
        + ((calculateChildPosition initialRoot .PROBABLE ⟨0, 0, 0⟩).2.1
            - initialRoot.position.2.1) ^ 2) < 3 := by
  have h := c8_child_position initialRoot ⟨0, 0, 0⟩ le_rfl zero_lt_one le_rfl
    zero_lt_one le_rfl zero_lt_one
  exact ⟨⟨le_rfl, zero_lt_one⟩, h.2.1, h.2.2.2⟩

/-- Claim C9 counterexample: for theme generation the value returned with
absent credentials equals the value returned on a transport/parse failure
(both are `null`), so the two conditions are not distinguishable from the
return value for this operation. -/
theorem c9_counterexample :
    generateMultiverseTheme "" (GenerateContentResult.ok DEFAULT_THEME) = none
  ∧ generateMultiverseTheme "gemini-key" GenerateContentResult.threw = none := by
  exact ⟨rfl, rfl⟩

/-- Claim C9 (amended): all three operations represent both absent
credentials and transport/parse failure as ordinary return values (no
exception crosses the boundary); for reflection and probe generation the
two values are distinct, but for theme generation both conditions return
the same absent value `none`, distinguishable from any success but not
from each other. -/
theorem c9_failure_values (k : String) (hk : k ≠ "")
    (r1 : GenerateContentResult String) (r2 : GenerateContentResult (List String))
    (r3 : GenerateContentResult MultiverseTheme) :
    generateReflection "" r1 ≠ generateReflection k .threw
  ∧ generateCulturalProbes "" r2 ≠ generateCulturalProbes k .threw
  ∧ generateMultiverseTheme "" r3 = none
  ∧ generateMultiverseTheme k .threw = none
  ∧ (∀ t : MultiverseTheme, generateMultiverseTheme k (.ok t) = some t) := by
  have hbeq : (k == "") = false := beq_eq_false_iff_ne.mpr hk
  have hR1 : generateReflection k .threw
      = "Static interference prevents a clear signal from the multiverse (API Error)." := by
    unfold generateReflection
    rw [hbeq]
    rfl
  have hR2 : generateCulturalProbes k .threw
      = ["Static interference (API Error)."] := by
    unfold generateCulturalProbes
    rw [hbeq]
    rfl
  have hR3 : generateMultiverseTheme k .threw = none := by
    unfold generateMultiverseTheme
    rw [hbeq]
    rfl
  have hOk : ∀ t : MultiverseTheme, generateMultiverseTheme k (.ok t) = some t := by
    intro t
    unfold generateMultiverseTheme
    rw [hbeq]
    rfl
  refine ⟨?_, ?_, rfl, hR3, hOk⟩
  · have hL : generateReflection "" r1
        = "API Key is missing. Please check your environment configuration." := rfl
    rw [hL, hR1]
    decide
  · have hL : generateCulturalProbes "" r2
        = ["API Key missing. Imagine a probe here."] := rfl
    rw [hL, hR2]
    decide

/-- Witness for C9's amended theorem at a concrete non-empty key. -/
theorem c9_witness :
    ("gemini-key" : String) ≠ ""
  ∧ generateReflection "" .empty ≠ generateReflection "gemini-key" .threw
  ∧ generateCulturalProbes "" .empty ≠ generateCulturalProbes "gemini-key" .threw
  ∧ generateMultiverseTheme "" (.ok DEFAULT_THEME) = none
  ∧ generateMultiverseTheme "gemini-key" .threw = none := by
  have hk : ("gemini-key" : String) ≠ "" := by decide
  have h := c9_failure_values "gemini-key" hk .empty .empty (.ok DEFAULT_THEME)
  exact ⟨hk, h.1, h.2.1, h.2.2.1, h.2.2.2.1⟩

/-- Claim C10: every snapshot pushed by a node-only mutation (create,
link, update) carries the theme of the snapshot at the cursor at the time
of the push — the current theme is unchanged by those operations — and
only the theme-application path pushes a snapshot with a different theme
(the freshly generated one). -/
theorem c10_node_mutations_preserve_theme (s : FullState) (h : s.Wf) :
    (∀ (pid : String) (d : CreateNodeData) (now : Nat) (rnd : RandomSamples),
       (handleCreateNode s pid d now rnd).current.theme = s.current.theme)
  ∧ (handleLinkSelectedNodes s).current.theme = s.current.theme
  ∧ (∀ (nodeId : String) (u : NodeUpdates),
       (handleUpdateNode s nodeId u).current.theme = s.current.theme)
  ∧ (∀ t : MultiverseTheme,
       (handleGenerateTheme s (some t)).current.theme = t) := by
  refine ⟨?_, ?_, ?_, ?_⟩
  · intro pid d now rnd
    unfold handleCreateNode
    cases hfind : s.current.nodes.find? (fun n => n.id == pid) with
    | none => rfl
    | some parentNode =>
      show (pushState s (s.current.nodes ++ [newNodeOf s pid d now rnd parentNode])
          s.current.theme).current.theme = s.current.theme
      rw [pushState_current s _ _ h]
  · unfold handleLinkSelectedNodes
    split
    · rename_i src tgt heq
      unfold linkPair
      split
      · split
        · show (pushState s (s.current.nodes.map (linkMapStep src.id tgt.id))
              s.current.theme).current.theme = s.current.theme
          rw [pushState_current s _ _ h]
        · rfl
      · rfl
    · rfl
  · intro nodeId u
    rw [handleUpdateNode_eq]
    rw [pushState_current s _ _ h]
  · intro t
    show (pushState s
        (s.current.nodes.map (fun n => { n with color := t.nodeColors.get n.type }))
        t).current.theme = t
    rw [pushState_current s _ _ h]

/-- Witness for C10 at the initial state. -/
theorem c10_witness :
    initialState.Wf
  ∧ (handleUpdateNode initialState "root" {}).current.theme
      = initialState.current.theme
  ∧ (handleGenerateTheme initialState (some DEFAULT_THEME)).current.theme
      = DEFAULT_THEME := by
  have h : initialState.Wf := by
    show initialState.historyIndex < initialState.history.length
    decide
  have hc := c10_node_mutations_preserve_theme initialState h
  exact ⟨h, hc.2.2.1 "root" {}, hc.2.2.2 DEFAULT_THEME⟩

end Multiverse
